import Mathlib

/-!
Verification of the txnscope ingestor core against its specification.

The definitions below are a shallow embedding of the Rust sources under
packages/ingestor/src (filter.rs, decoder.rs, publisher.rs, ipc.rs).
Bytes are modelled as natural numbers (each < 256 in practice), machine
integers as Nat with explicit wrap-around (mod 2^64) where the Rust code
can overflow, fallible code as Except/Option, and the effectful boundary
(the alloy RLP body parsers, the socket environment, the wall clock) as
explicit oracle parameters.
-/

namespace TxnScope

/-! ### Selector filter, from packages/ingestor/src/filter.rs -/

/-- The 6 DEX method identifiers (enum DexMethodId in filter.rs). -/
inductive DexMethodId where
  | addLiquidityEth
  | addLiquidity
  | swapExactEthForTokens
  | swapExactTokensForTokens
  | swapTokensForExactTokens
  | swapExactTokensForEth
deriving DecidableEq, Fintype

/-- The 4-byte method selector (DexMethodId::selector). -/
def DexMethodId.selector : DexMethodId → List Nat
  | .addLiquidityEth => [0xf3, 0x05, 0xd7, 0x19]
  | .addLiquidity => [0xe8, 0xe3, 0x37, 0x00]
  | .swapExactEthForTokens => [0x7f, 0xf3, 0x6a, 0xb5]
  | .swapExactTokensForTokens => [0x38, 0xed, 0x17, 0x39]
  | .swapTokensForExactTokens => [0x88, 0x03, 0xdb, 0xee]
  | .swapExactTokensForEth => [0x18, 0xcb, 0xaf, 0xe5]

/-- The human-readable method name (DexMethodId::name). -/
def DexMethodId.name : DexMethodId → String
  | .addLiquidityEth => "addLiquidityETH"
  | .addLiquidity => "addLiquidity"
  | .swapExactEthForTokens => "swapExactETHForTokens"
  | .swapExactTokensForTokens => "swapExactTokensForTokens"
  | .swapTokensForExactTokens => "swapTokensForExactTokens"
  | .swapExactTokensForEth => "swapExactTokensForETH"

/-- The hex-encoded method ID with 0x prefix (DexMethodId::hex). -/
def DexMethodId.hex : DexMethodId → String
  | .addLiquidityEth => "0xf305d719"
  | .addLiquidity => "0xe8e33700"
  | .swapExactEthForTokens => "0x7ff36ab5"
  | .swapExactTokensForTokens => "0x38ed1739"
  | .swapTokensForExactTokens => "0x8803dbee"
  | .swapExactTokensForEth => "0x18cbafe5"

/-- Lookup in the static DEX_METHODS table (filter.rs); the HashMap with the
six fixed entries is modelled as the equivalent chain of exact comparisons. -/
def get_dex_method (method_id : List Nat) : Option DexMethodId :=
  if method_id = [0xf3, 0x05, 0xd7, 0x19] then some .addLiquidityEth
  else if method_id = [0xe8, 0xe3, 0x37, 0x00] then some .addLiquidity
  else if method_id = [0x7f, 0xf3, 0x6a, 0xb5] then some .swapExactEthForTokens
  else if method_id = [0x38, 0xed, 0x17, 0x39] then some .swapExactTokensForTokens
  else if method_id = [0x88, 0x03, 0xdb, 0xee] then some .swapTokensForExactTokens
  else if method_id = [0x18, 0xcb, 0xaf, 0xe5] then some .swapExactTokensForEth
  else none

/-- Membership test in the DEX method table (filter.rs is_dex_method). -/
def is_dex_method (method_id : List Nat) : Bool :=
  (get_dex_method method_id).isSome

/-- Extract the method ID, that is the first 4 bytes of the calldata
(filter.rs extract_method_id; decoder.rs has a textually identical copy).
Total: returns none when the input is shorter than 4 bytes. -/
def extract_method_id (input : List Nat) : Option (List Nat) :=
  if input.length < 4 then none
  else some (input.take 4)

/-- Compose extraction and table lookup (filter.rs filter_transaction). -/
def filter_transaction (input : List Nat) : Option DexMethodId :=
  (extract_method_id input).bind (fun id => get_dex_method id)

theorem get_dex_method_eq_some {id : List Nat} {m : DexMethodId}
    (h : get_dex_method id = some m) : id = m.selector := by
  unfold get_dex_method at h
  split_ifs at h with h1 h2 h3 h4 h5 h6 <;>
    simp only [Option.some.injEq] at h <;>
    subst h <;> assumption

theorem extract_method_id_of_le {input : List Nat} (h : 4 ≤ input.length) :
    extract_method_id input = some (input.take 4) := by
  simp [extract_method_id, Nat.not_lt.mpr h]

/-- C2: extract_method_id returns none on buffers shorter than 4 bytes and
exactly the first 4 bytes on buffers of length at least 4; it is a total
function (a Lean def) with no error path. -/
theorem extract_method_id_spec (input : List Nat) :
    (input.length < 4 → extract_method_id input = none) ∧
    (4 ≤ input.length → extract_method_id input = some (input.take 4)) := by
  constructor
  · intro h
    simp [extract_method_id, h]
  · intro h
    exact extract_method_id_of_le h

theorem extract_method_id_spec_witness :
    extract_method_id [0x38, 0xed, 0x17] = none ∧
    extract_method_id [0x38, 0xed, 0x17, 0x39, 0x00] = some [0x38, 0xed, 0x17, 0x39] := by
  refine ⟨(extract_method_id_spec [0x38, 0xed, 0x17]).1 (by decide), ?_⟩
  have h := (extract_method_id_spec [0x38, 0xed, 0x17, 0x39, 0x00]).2 (by decide)
  simpa using h

/-- C1: for each of the six fixed DEX selectors, filter_transaction on any
input beginning with that selector returns the corresponding DexMethodId;
for any input of length at least 4 whose first 4 bytes are not one of the
six selectors, it returns none. -/
theorem filter_transaction_spec :
    (∀ rest : List Nat,
      filter_transaction (0xf3 :: 0x05 :: 0xd7 :: 0x19 :: rest) = some .addLiquidityEth ∧
      filter_transaction (0xe8 :: 0xe3 :: 0x37 :: 0x00 :: rest) = some .addLiquidity ∧
      filter_transaction (0x7f :: 0xf3 :: 0x6a :: 0xb5 :: rest) = some .swapExactEthForTokens ∧
      filter_transaction (0x38 :: 0xed :: 0x17 :: 0x39 :: rest) = some .swapExactTokensForTokens ∧
      filter_transaction (0x88 :: 0x03 :: 0xdb :: 0xee :: rest) = some .swapTokensForExactTokens ∧
      filter_transaction (0x18 :: 0xcb :: 0xaf :: 0xe5 :: rest) = some .swapExactTokensForEth) ∧
    (∀ input : List Nat, 4 ≤ input.length →
      (∀ m : DexMethodId, input.take 4 ≠ m.selector) →
      filter_transaction input = none) := by
  constructor
  · intro rest
    exact ⟨rfl, rfl, rfl, rfl, rfl, rfl⟩
  · intro input hlen hne
    unfold filter_transaction
    rw [extract_method_id_of_le hlen]
    simp only [Option.some_bind]
    unfold get_dex_method
    split_ifs with h1 h2 h3 h4 h5 h6
    · exact absurd h1 (hne .addLiquidityEth)
    · exact absurd h2 (hne .addLiquidity)
    · exact absurd h3 (hne .swapExactEthForTokens)
    · exact absurd h4 (hne .swapExactTokensForTokens)
    · exact absurd h5 (hne .swapTokensForExactTokens)
    · exact absurd h6 (hne .swapExactTokensForEth)
    · rfl

theorem filter_transaction_spec_witness :
    filter_transaction [0x38, 0xed, 0x17, 0x39, 0x00, 0x00, 0x00, 0x00] =
      some .swapExactTokensForTokens ∧
    filter_transaction [0xa9, 0x05, 0x9c, 0xbb, 0x00, 0x00, 0x00, 0x00] = none ∧
    filter_transaction [0x09, 0x5e, 0xa7, 0xb3] = none ∧
    filter_transaction [0x00, 0x00, 0x00, 0x00] = none := by
  refine ⟨(filter_transaction_spec.1 [0x00, 0x00, 0x00, 0x00]).2.2.2.1, ?_, ?_, ?_⟩
  · exact filter_transaction_spec.2 [0xa9, 0x05, 0x9c, 0xbb, 0x00, 0x00, 0x00, 0x00]
      (by decide) (by decide)
  · exact filter_transaction_spec.2 [0x09, 0x5e, 0xa7, 0xb3] (by decide) (by decide)
  · exact filter_transaction_spec.2 [0x00, 0x00, 0x00, 0x00] (by decide) (by decide)

/-! ### Transaction decoder, from packages/ingestor/src/decoder.rs -/

/-- Decoding error taxonomy (enum DecodeError in decoder.rs). -/
inductive DecodeError where
  | rlpDecode (msg : String)
  | emptyInput
  | inputTooShort
  | invalidTxType (t : Nat)
deriving DecidableEq

/-- Field set shared by legacy and EIP-2930 transactions (the fields
extract_tx_fields reads from them). -/
structure LegacyTxData where
  input : List Nat
  to_ : Option Nat
  value : Nat
  gas_price : Nat
  nonce : Nat
  gas_limit : Nat
deriving DecidableEq

/-- Field set of an EIP-1559 transaction as read by extract_tx_fields. -/
structure DynFeeTxData where
  input : List Nat
  to_ : Option Nat
  value : Nat
  max_fee_per_gas : Nat
  nonce : Nat
  gas_limit : Nat
deriving DecidableEq

/-- Field set of an EIP-4844 blob transaction as read by extract_tx_fields
(the recipient is mandatory for blob transactions). -/
structure BlobTxData where
  input : List Nat
  to_ : Nat
  value : Nat
  max_fee_per_gas : Nat
  nonce : Nat
  gas_limit : Nat
deriving DecidableEq

/-- Transaction envelope (alloy TxEnvelope) restricted to the fields the
decoder reads; each variant carries the canonical transaction hash. The
catch-all variant stands for any other envelope kind, which
extract_tx_fields maps to default values. -/
inductive TxEnvelope where
  | legacy (hash : Nat) (tx : LegacyTxData)
  | eip2930 (hash : Nat) (tx : LegacyTxData)
  | eip1559 (hash : Nat) (tx : DynFeeTxData)
  | eip4844 (hash : Nat) (tx : BlobTxData)
  | other (hash : Nat)
deriving DecidableEq

/-- The canonical hash of the envelope (TxEnvelope::tx_hash). -/
def TxEnvelope.tx_hash : TxEnvelope → Nat
  | .legacy h _ => h
  | .eip2930 h _ => h
  | .eip1559 h _ => h
  | .eip4844 h _ => h
  | .other h => h

/-- Uniform field set extracted from an envelope (the 6-tuple returned by
extract_tx_fields in decoder.rs, given named components). -/
structure TxFields where
  input : List Nat
  to_ : Option Nat
  value : Nat
  gas_price : Nat
  nonce : Nat
  gas_limit : Nat
deriving DecidableEq

/-- Extract transaction fields from a TxEnvelope (extract_tx_fields in
decoder.rs): the fee-relevant price is gas_price for legacy/EIP-2930 and
max_fee_per_gas for EIP-1559/EIP-4844; any other kind yields default/zero
values. -/
def extract_tx_fields : TxEnvelope → TxFields
  | .legacy _ tx => ⟨tx.input, tx.to_, tx.value, tx.gas_price, tx.nonce, tx.gas_limit⟩
  | .eip2930 _ tx => ⟨tx.input, tx.to_, tx.value, tx.gas_price, tx.nonce, tx.gas_limit⟩
  | .eip1559 _ tx => ⟨tx.input, tx.to_, tx.value, tx.max_fee_per_gas, tx.nonce, tx.gas_limit⟩
  | .eip4844 _ tx => ⟨tx.input, some tx.to_, tx.value, tx.max_fee_per_gas, tx.nonce, tx.gas_limit⟩
  | .other _ => ⟨[], none, 0, 0, 0, 0⟩

/-- Decoded transaction record (struct DecodedTransaction in decoder.rs);
the sender field is named from_ because Lean reserves the word from. -/
structure DecodedTransaction where
  hash : Nat
  from_ : Nat
  to_ : Option Nat
  value : Nat
  gas_price : Nat
  input : List Nat
  method_id : Option (List Nat)
  dex_method : Option DexMethodId
  nonce : Nat
  gas_limit : Nat
deriving DecidableEq

/-- Big-endian bytes to natural number, for RLP length-of-length fields. -/
def beBytesToNat (bs : List Nat) : Nat :=
  bs.foldl (fun acc b => acc * 256 + b) 0

/-- Modelled from the spec: the RLP envelope parsing lives in the external
alloy dependency, not under src/. This is the canonical RLP header rule the
spec's envelope kinds rely on: it classifies the first byte as single byte,
short or long string, short or long list, returning (isList, payloadLength,
remaining bytes) or a decode error when the buffer is too short or the
length encoding is non-canonical. -/
def rlpHeader (buf : List Nat) : Except String (Bool × Nat × List Nat) :=
  match buf with
  | [] => .error "input too short"
  | b :: rest =>
    let core : Except String (Bool × Nat × List Nat) :=
      if b ≤ 0x7f then
        .ok (false, 1, buf)
      else if b ≤ 0xb7 then
        let len := b - 0x80
        if len = 1 then
          match rest with
          | [] => .error "input too short"
          | x :: _ =>
            if x < 0x80 then .error "non-canonical single byte"
            else .ok (false, len, rest)
        else .ok (false, len, rest)
      else if b ≤ 0xbf ∨ 0xf8 ≤ b then
        let isList := 0xf8 ≤ b
        let lenOfLen := if isList then b - 0xf7 else b - 0xb7
        if rest.length < lenOfLen then .error "input too short"
        else if (rest.take lenOfLen).headD 0 = 0 then .error "leading zero"
        else
          let len := beBytesToNat (rest.take lenOfLen)
          if len < 56 then .error "non-canonical size"
          else .ok (isList, len, rest.drop lenOfLen)
      else .ok (true, b - 0xc0, rest)
    match core with
    | .error e => .error e
    | .ok (isList, len, rem) =>
      if rem.length < len then .error "input too short"
      else .ok (isList, len, rem)

/-- Modelled from the spec: the network decoding of a transaction envelope
performed by the external alloy dependency. It first parses the RLP header;
a list header dispatches to the legacy body parser, a string header to the
typed-transaction payload parser. The two body parsers are kept abstract as
the oracle decodeBody (isList, payloadLength, remaining bytes). -/
def networkDecode (decodeBody : Bool → Nat → List Nat → Except String TxEnvelope)
    (buf : List Nat) : Except String TxEnvelope :=
  match rlpHeader buf with
  | .error e => .error e
  | .ok (isList, len, rem) => decodeBody isList len rem

/-- Decode a transaction from RLP bytes (decode_transaction in decoder.rs):
reject an empty buffer as emptyInput before parsing, wrap any envelope
decode failure as rlpDecode, and on success assemble the record, populating
method_id and dex_method from the extracted calldata. -/
def decode_transaction (decodeBody : Bool → Nat → List Nat → Except String TxEnvelope)
    (rlp_bytes : List Nat) (from_ : Nat) : Except DecodeError DecodedTransaction :=
  if rlp_bytes = [] then .error .emptyInput
  else
    match networkDecode decodeBody rlp_bytes with
    | .error e => .error (.rlpDecode e)
    | .ok env =>
      let f := extract_tx_fields env
      .ok {
        hash := env.tx_hash
        from_ := from_
        to_ := f.to_
        value := f.value
        gas_price := f.gas_price
        input := f.input
        method_id := extract_method_id f.input
        dex_method := filter_transaction f.input
        nonce := f.nonce
        gas_limit := f.gas_limit }

theorem filter_transaction_eq_some {input : List Nat} {m : DexMethodId}
    (h : filter_transaction input = some m) :
    extract_method_id input = some m.selector := by
  unfold filter_transaction at h
  cases hx : extract_method_id input with
  | none => rw [hx] at h; simp at h
  | some id =>
    rw [hx] at h
    simp only [Option.some_bind] at h
    exact congrArg some (get_dex_method_eq_some h)

/-- C3: every DecodedTransaction produced by decode_transaction satisfies
the invariant that a present dex_method forces method_id to be present and
equal, byte for byte, to that method's 4-byte selector from the static
table. -/
theorem decode_transaction_dex_invariant
    (decodeBody : Bool → Nat → List Nat → Except String TxEnvelope)
    (rlp_bytes : List Nat) (sender : Nat) (tx : DecodedTransaction) (m : DexMethodId)
    (hok : decode_transaction decodeBody rlp_bytes sender = .ok tx)
    (hm : tx.dex_method = some m) :
    tx.method_id = some m.selector := by
  unfold decode_transaction at hok
  split at hok
  · exact absurd hok (by simp)
  · cases hnet : networkDecode decodeBody rlp_bytes with
    | error e => rw [hnet] at hok; exact absurd hok (by simp)
    | ok env =>
      rw [hnet] at hok
      simp only [Except.ok.injEq] at hok
      subst hok
      exact filter_transaction_eq_some hm

/-- Concrete envelope decoder used to witness the invariant: it returns a
legacy transaction whose calldata begins with the swapExactTokensForTokens
selector. -/
def demoBody : Bool → Nat → List Nat → Except String TxEnvelope :=
  fun _ _ _ => .ok (.legacy 7 ⟨[0x38, 0xed, 0x17, 0x39, 0x01], some 5, 1, 2, 3, 4⟩)

/-- Expected decode result for the witness input. -/
def demoTx : DecodedTransaction :=
  { hash := 7
    from_ := 9
    to_ := some 5
    value := 1
    gas_price := 2
    input := [0x38, 0xed, 0x17, 0x39, 0x01]
    method_id := some [0x38, 0xed, 0x17, 0x39]
    dex_method := some .swapExactTokensForTokens
    nonce := 3
    gas_limit := 4 }

theorem decode_transaction_dex_invariant_witness :
    decode_transaction demoBody [0xc0] 9 = .ok demoTx ∧
    demoTx.method_id = some (DexMethodId.selector .swapExactTokensForTokens) := by
  refine ⟨by rfl, ?_⟩
  exact decode_transaction_dex_invariant demoBody [0xc0] 9 demoTx
    .swapExactTokensForTokens (by rfl) (by rfl)

/-- C5: decode_transaction on the empty buffer fails with emptyInput before
the envelope parser runs (the result does not depend on the body decoder);
on the buffer of four 0xff bytes the RLP header parse fails (a long-list
prefix announcing an 8-byte length with only 3 bytes left), so it fails
with rlpDecode; and in general any nonempty buffer rejected by the
envelope decoder yields rlpDecode with the underlying message. -/
theorem decode_transaction_error_spec
    (decodeBody : Bool → Nat → List Nat → Except String TxEnvelope) (sender : Nat) :
    decode_transaction decodeBody [] sender = .error .emptyInput ∧
    decode_transaction decodeBody [0xff, 0xff, 0xff, 0xff] sender =
      .error (.rlpDecode "input too short") ∧
    (∀ rlp_bytes e, rlp_bytes ≠ [] →
      networkDecode decodeBody rlp_bytes = .error e →
      decode_transaction decodeBody rlp_bytes sender = .error (.rlpDecode e)) := by
  refine ⟨rfl, rfl, ?_⟩
  intro rlp_bytes e hne hnet
  unfold decode_transaction
  rw [if_neg hne, hnet]

theorem decode_transaction_error_spec_witness :
    decode_transaction (fun _ _ _ => Except.error "x") [0xc0] 0 =
      .error (.rlpDecode "x") :=
  (decode_transaction_error_spec (fun _ _ _ => Except.error "x") 0).2.2
    [0xc0] "x" (by decide) rfl

/-! ### Message formatter and publisher, from packages/ingestor/src/publisher.rs -/

/-- Hex digits of a number, fixed width, most significant first; digitChar
renders 0-15 as lowercase hex, matching the Rust alternate-hex formatter. -/
def hexChars : Nat → Nat → List Char
  | 0, _ => []
  | w + 1, n => hexChars w (n / 16) ++ [Nat.digitChar (n % 16)]

/-- Zero-padded lowercase hex string of the given width. -/
def hexPad (w n : Nat) : String :=
  ⟨hexChars w n⟩

/-- Render a 32-byte transaction hash the way format! with the 0x-prefixed
lowercase hex specifier does on a B256 value. -/
def format_hash (h : Nat) : String :=
  "0x" ++ hexPad 64 h

/-- Render a 20-byte address the way format! with the 0x-prefixed lowercase
hex specifier does on an Address value. -/
def format_address (a : Nat) : String :=
  "0x" ++ hexPad 40 a

/-- Outbound message record (struct TransactionMessage in publisher.rs);
the sender field is named from_ because Lean reserves the word from. -/
structure TransactionMessage where
  hash : String
  from_ : String
  to_ : String
  method : String
  method_id : String
  value : String
  gas_price : String
  timestamp : Nat
deriving DecidableEq

/-- Build the outbound message from a decoded transaction
(TransactionMessage::from_decoded): none unless dex_method is present;
hex fields are 0x-prefixed lowercase, an absent recipient renders as the
empty string, numeric fields as base-10 decimal strings, and the timestamp
is the wall clock at formatting time, passed here as the parameter now. -/
def from_decoded (now : Nat) (tx : DecodedTransaction) : Option TransactionMessage :=
  match tx.dex_method with
  | none => none
  | some dex_method =>
    some {
      hash := format_hash tx.hash
      from_ := format_address tx.from_
      to_ := (tx.to_.map format_address).getD ""
      method := dex_method.name
      method_id := dex_method.hex
      value := Nat.repr tx.value
      gas_price := Nat.repr tx.gas_price
      timestamp := now }

/-- JSON values, restricted to the shapes the message serialization uses. -/
inductive Json where
  | str (s : String)
  | num (n : Nat)
  | obj (fields : List (String × Json))

/-- Serialize a message to a JSON object (TransactionMessage::to_json):
the serde derive with camelCase renaming emits exactly the eight fields
hash, from, to, method, methodId, value, gasPrice, timestamp. The external
serde_json rendering of a JSON value to a byte string is the trusted
library boundary; the repository-determined field mapping is modelled at
the JSON value level. -/
def to_json (m : TransactionMessage) : Json :=
  .obj [
    ("hash", .str m.hash),
    ("from", .str m.from_),
    ("to", .str m.to_),
    ("method", .str m.method),
    ("methodId", .str m.method_id),
    ("value", .str m.value),
    ("gasPrice", .str m.gas_price),
    ("timestamp", .num m.timestamp)]

/-- First binding of a key in a JSON object, as serde field lookup. -/
def getField : List (String × Json) → String → Option Json
  | [], _ => none
  | (k, v) :: rest, key => if k = key then some v else getField rest key

/-- Expect a JSON string. -/
def asStr : Option Json → Option String
  | some (.str s) => some s
  | _ => none

/-- Expect a JSON number. -/
def asNum : Option Json → Option Nat
  | some (.num n) => some n
  | _ => none

/-- Deserialize a message from a JSON value (TransactionMessage::from_json
via the serde derive): requires a JSON object carrying all eight fields
under their camelCase names, with from/to/... as strings and timestamp as
an unsigned number. -/
def from_json (j : Json) : Option TransactionMessage :=
  match j with
  | .obj fs =>
    match asStr (getField fs "hash"), asStr (getField fs "from"),
        asStr (getField fs "to"), asStr (getField fs "method"),
        asStr (getField fs "methodId"), asStr (getField fs "value"),
        asStr (getField fs "gasPrice"), asNum (getField fs "timestamp") with
    | some h, some f, some t, some me, some mi, some v, some g, some ts =>
      some ⟨h, f, t, me, mi, v, g, ts⟩
    | _, _, _, _, _, _, _, _ => none
  | _ => none

theorem hexChars_length (w n : Nat) : (hexChars w n).length = w := by
  induction w generalizing n with
  | zero => rfl
  | succ w ih => simp [hexChars, ih]

theorem format_address_ne_empty (a : Nat) : format_address a ≠ "" := by
  intro h
  have hlen : (format_address a).length = 0 := by rw [h]; rfl
  rw [format_address, String.length_append] at hlen
  have h2 : ("0x" : String).length = 2 := rfl
  omega

/-- C4: from_decoded returns none exactly when dex_method is absent; when
it returns a message, the method field is the operation's human-readable
name, the method_id field its canonical lowercase 0x-prefixed hex string,
the to field is the empty string exactly when the decoded transaction has
no recipient (contract creation), and value and gas_price are the base-10
decimal renderings of the decoded value and gas price. -/
theorem from_decoded_spec (now : Nat) (tx : DecodedTransaction) :
    (from_decoded now tx = none ↔ tx.dex_method = none) ∧
    (∀ m msg, tx.dex_method = some m → from_decoded now tx = some msg →
      msg.method = m.name ∧
      msg.method_id = m.hex ∧
      (msg.to_ = "" ↔ tx.to_ = none) ∧
      msg.value = Nat.repr tx.value ∧
      msg.gas_price = Nat.repr tx.gas_price) := by
  constructor
  · cases h : tx.dex_method with
    | none => simp [from_decoded, h]
    | some m => simp [from_decoded, h]
  · intro m msg hm hmsg
    rw [from_decoded, hm] at hmsg
    simp only [Option.some.injEq] at hmsg
    subst hmsg
    refine ⟨rfl, rfl, ?_, rfl, rfl⟩
    cases hto : tx.to_ with
    | none => simp [hto]
    | some a =>
      simp only [hto, Option.map_some, Option.getD_some]
      constructor
      · intro h
        exact absurd h (format_address_ne_empty a)
      · intro h
        cases h

/-- Expected formatted message for the witness transaction. -/
def demoMsg : TransactionMessage :=
  { hash := format_hash 7
    from_ := format_address 9
    to_ := format_address 5
    method := "swapExactTokensForTokens"
    method_id := "0x38ed1739"
    value := "1"
    gas_price := "2"
    timestamp := 1703000000000 }

theorem from_decoded_spec_witness :
    from_decoded 1703000000000 demoTx = some demoMsg ∧
    demoMsg.method = DexMethodId.name .swapExactTokensForTokens ∧
    demoMsg.method_id = DexMethodId.hex .swapExactTokensForTokens ∧
    (demoMsg.to_ = "" ↔ demoTx.to_ = none) := by
  have h := (from_decoded_spec 1703000000000 demoTx).2 .swapExactTokensForTokens
    demoMsg rfl rfl
  exact ⟨rfl, h.1, h.2.1, h.2.2.1⟩

/-- C6: deserializing the serialization of any constructed message
reproduces all eight fields exactly; at the record level the round trip is
the identity. -/
theorem json_round_trip (m : TransactionMessage) :
    from_json (to_json m) = some m :=
  rfl

/-! ### IPC connection manager, from packages/ingestor/src/ipc.rs -/

/-- Default IPC socket paths tried in order (DEFAULT_IPC_PATHS). -/
def DEFAULT_IPC_PATHS : List String :=
  ["/tmp/anvil.ipc", "~/.foundry/anvil.ipc", "/var/run/geth.ipc", "~/.ethereum/geth.ipc"]

/-- Maximum number of reconnection attempts before giving up. -/
def MAX_RECONNECT_ATTEMPTS : Nat := 10

/-- Initial backoff delay for reconnection, in milliseconds. -/
def INITIAL_BACKOFF_MS : Nat := 100

/-- Maximum backoff delay for reconnection, in milliseconds. -/
def MAX_BACKOFF_MS : Nat := 30000

/-- Connection timeout in milliseconds. -/
def CONNECTION_TIMEOUT_MS : Nat := 5000

/-- One more than the largest u64 value; u64 arithmetic wraps modulo this
in release builds. -/
def UINT64_CAP : Nat := 2 ^ 64

/-- IPC error taxonomy (enum IpcError in ipc.rs). -/
inductive IpcError where
  | socketNotFound (path : String)
  | connectionFailed (msg : String)
  | subscriptionFailed (msg : String)
  | timeout (ms : Nat)
  | maxReconnectAttemptsExceeded (attempts : Nat)
  | invalidPath (msg : String)
  | provider (msg : String)
deriving DecidableEq

/-- IPC connection configuration (struct IpcConfig in ipc.rs). -/
structure IpcConfig where
  socket_path : String
  max_reconnect_attempts : Nat
  initial_backoff_ms : Nat
  max_backoff_ms : Nat
  timeout_ms : Nat
deriving DecidableEq

/-- Default configuration (impl Default for IpcConfig); the socket path is
the first entry of DEFAULT_IPC_PATHS. -/
def IpcConfig.default : IpcConfig :=
  { socket_path := DEFAULT_IPC_PATHS.headD ""
    max_reconnect_attempts := MAX_RECONNECT_ATTEMPTS
    initial_backoff_ms := INITIAL_BACKOFF_MS
    max_backoff_ms := MAX_BACKOFF_MS
    timeout_ms := CONNECTION_TIMEOUT_MS }

/-- Backoff delay for a given attempt (IpcConfig::backoff_delay):
initial_backoff_ms * 2^(min attempt 10), computed in u64 (so wrapping
modulo 2^64 in release builds), then clamped at max_backoff_ms. The result
is the duration in milliseconds. -/
def IpcConfig.backoff_delay (cfg : IpcConfig) (attempt : Nat) : Nat :=
  min (cfg.initial_backoff_ms * 2 ^ (min attempt 10) % UINT64_CAP) cfg.max_backoff_ms

/-- Expand a leading tilde shorthand against the caller's home directory
(expand_path in ipc.rs); home is none when no home directory is known. -/
def expand_path (home : Option String) (path : String) : String :=
  if path.startsWith "~/" then
    match home with
    | some h => h ++ path.drop 1
    | none => path
  else path

/-- Connection-manager state (struct IpcConnection in ipc.rs): the
configuration and the stored reconnect-attempt counter. -/
structure IpcConnection where
  config : IpcConfig
  reconnect_attempts : Nat
deriving DecidableEq

/-- Reset the reconnection counter (IpcConnection::reset_reconnect_counter). -/
def IpcConnection.reset_reconnect_counter (conn : IpcConnection) : IpcConnection :=
  { conn with reconnect_attempts := 0 }

/-- Delay before the next reconnection attempt
(IpcConnection::next_backoff_delay). -/
def IpcConnection.next_backoff_delay (conn : IpcConnection) : Nat :=
  conn.config.backoff_delay conn.reconnect_attempts

/-- One connection attempt (IpcConnection::connect). The filesystem and the
transport handshake are oracles: pathExists tells whether the expanded
socket path exists, handshake is the outcome of the provider handshake.
On the missing path it fails with socketNotFound (carrying the expanded
path), on a failed handshake with connectionFailed; on success it resets
the reconnect counter to 0. No code path consults config.timeout_ms or
produces the timeout error. -/
def IpcConnection.connect (conn : IpcConnection) (home : Option String)
    (pathExists : Bool) (handshake : Except String Unit) :
    IpcConnection × Except IpcError Unit :=
  let expanded := expand_path home conn.config.socket_path
  if pathExists = false then
    (conn, .error (.socketNotFound expanded))
  else
    match handshake with
    | .error e => (conn, .error (.connectionFailed e))
    | .ok _ => (conn.reset_reconnect_counter, .ok ())

/-- Observable events of the reconnect loop: the cooperative backoff sleep
(with its duration in milliseconds) and a connection attempt. -/
inductive IpcEvent where
  | sleep (ms : Nat)
  | attemptConnect
deriving DecidableEq

/-- Whether a connection environment (path existence, handshake outcome)
makes a connect call succeed. -/
def connectOk (e : Bool × Except String Unit) : Bool :=
  e.1 && (match e.2 with | .ok _ => true | .error _ => false)

/-- The reconnect loop of IpcConnection::reconnect, with explicit fuel.
Each iteration runs while the stored counter is below the configured
maximum: it sleeps for next_backoff_delay, increments the counter, then
attempts connect with the environment of the current call index; a success
returns immediately (the counter was reset by connect), a failure
continues. Exhaustion fails with maxReconnectAttemptsExceeded carrying the
configured maximum. The fuel is chosen by reconnect so that it runs out
exactly when the loop condition turns false. -/
def reconnectLoop (home : Option String) (env : Nat → Bool × Except String Unit) :
    Nat → Nat → IpcConnection → List IpcEvent × IpcConnection × Except IpcError Unit
  | 0, _, conn =>
    ([], conn, .error (.maxReconnectAttemptsExceeded conn.config.max_reconnect_attempts))
  | fuel + 1, callIdx, conn =>
    if conn.reconnect_attempts < conn.config.max_reconnect_attempts then
      match ({ conn with reconnect_attempts := conn.reconnect_attempts + 1 } :
          IpcConnection).connect home (env callIdx).1 (env callIdx).2 with
      | (conn2, .ok _) =>
        ([.sleep conn.next_backoff_delay, .attemptConnect], conn2, .ok ())
      | (conn2, .error _) =>
        (.sleep conn.next_backoff_delay :: .attemptConnect ::
            (reconnectLoop home env fuel (callIdx + 1) conn2).1,
          (reconnectLoop home env fuel (callIdx + 1) conn2).2)
    else
      ([], conn, .error (.maxReconnectAttemptsExceeded conn.config.max_reconnect_attempts))

/-- Reconnect with exponential backoff (IpcConnection::reconnect), as the
event trace, the final connection state and the result. -/
def IpcConnection.reconnect (conn : IpcConnection) (home : Option String)
    (env : Nat → Bool × Except String Unit) :
    List IpcEvent × IpcConnection × Except IpcError Unit :=
  reconnectLoop home env
    (conn.config.max_reconnect_attempts - conn.reconnect_attempts) 0 conn

/-- The event trace of n consecutive failed loop iterations starting at
counter value a: each sleeps for the backoff delay of the current counter,
then attempts to connect. -/
def expectedTrace (cfg : IpcConfig) : Nat → Nat → List IpcEvent
  | _, 0 => []
  | a, n + 1 =>
    .sleep (cfg.backoff_delay a) :: .attemptConnect :: expectedTrace cfg (a + 1) n

theorem connect_fail (conn : IpcConnection) (home : Option String)
    (e : Bool × Except String Unit) (h : connectOk e = false) :
    ∃ err, conn.connect home e.1 e.2 = (conn, .error err) := by
  obtain ⟨pe, hs⟩ := e
  cases pe <;> cases hs <;> simp_all [connectOk, IpcConnection.connect]

theorem connect_success (conn : IpcConnection) (home : Option String)
    (e : Bool × Except String Unit) (h : connectOk e = true) :
    conn.connect home e.1 e.2 = (conn.reset_reconnect_counter, .ok ()) := by
  obtain ⟨pe, hs⟩ := e
  cases pe <;> cases hs <;> simp_all [connectOk, IpcConnection.connect]

theorem reconnectLoop_all_fail (home : Option String)
    (env : Nat → Bool × Except String Unit) (cfg : IpcConfig) :
    ∀ fuel c a, a + fuel = cfg.max_reconnect_attempts →
    (∀ i, i < fuel → connectOk (env (c + i)) = false) →
    reconnectLoop home env fuel c ⟨cfg, a⟩ =
      (expectedTrace cfg a fuel, ⟨cfg, cfg.max_reconnect_attempts⟩,
        .error (.maxReconnectAttemptsExceeded cfg.max_reconnect_attempts)) := by
  intro fuel
  induction fuel with
  | zero =>
    intro c a ha _
    have : a = cfg.max_reconnect_attempts := by omega
    subst this
    rfl
  | succ fuel ih =>
    intro c a ha hfail
    have halt : a < cfg.max_reconnect_attempts := by omega
    obtain ⟨err, hc⟩ := connect_fail ⟨cfg, a + 1⟩ home (env c)
      (by have := hfail 0 (by omega); simpa using this)
    simp only [reconnectLoop, halt, if_true]
    rw [hc]
    have hrec := ih (c + 1) (a + 1) (by omega)
      (fun i hi => by
        have := hfail (i + 1) (by omega)
        rwa [show c + (i + 1) = c + 1 + i by omega] at this)
    dsimp only
    rw [hrec]
    rfl

theorem reconnectLoop_first_success (home : Option String)
    (env : Nat → Bool × Except String Unit) (cfg : IpcConfig) :
    ∀ k fuel c a, k < fuel → a + fuel = cfg.max_reconnect_attempts →
    (∀ i, i < k → connectOk (env (c + i)) = false) →
    connectOk (env (c + k)) = true →
    reconnectLoop home env fuel c ⟨cfg, a⟩ =
      (expectedTrace cfg a (k + 1), ⟨cfg, 0⟩, .ok ()) := by
  intro k
  induction k with
  | zero =>
    intro fuel c a hk ha _ hok
    obtain ⟨fuel, rfl⟩ : ∃ f, fuel = f + 1 := ⟨fuel - 1, by omega⟩
    have halt : a < cfg.max_reconnect_attempts := by omega
    have hc := connect_success ⟨cfg, a + 1⟩ home (env c) (by simpa using hok)
    simp only [reconnectLoop, halt, if_true]
    rw [hc]
    rfl
  | succ k ih =>
    intro fuel c a hk ha hfail hok
    obtain ⟨fuel, rfl⟩ : ∃ f, fuel = f + 1 := ⟨fuel - 1, by omega⟩
    have halt : a < cfg.max_reconnect_attempts := by omega
    obtain ⟨err, hc⟩ := connect_fail ⟨cfg, a + 1⟩ home (env c)
      (by have := hfail 0 (by omega); simpa using this)
    simp only [reconnectLoop, halt, if_true]
    rw [hc]
    have hrec := ih fuel (c + 1) (a + 1) (by omega) (by omega)
      (fun i hi => by
        have := hfail (i + 1) (by omega)
        rwa [show c + (i + 1) = c + 1 + i by omega] at this)
      (by
        have := hok
        rwa [show c + (k + 1) = c + 1 + k by omega] at this)
    dsimp only
    rw [hrec]
    rfl

theorem reconnectLoop_attempt_count (home : Option String)
    (env : Nat → Bool × Except String Unit) :
    ∀ fuel c conn,
      ((reconnectLoop home env fuel c conn).1.count IpcEvent.attemptConnect) ≤ fuel := by
  intro fuel
  induction fuel with
  | zero => intro c conn; simp [reconnectLoop]
  | succ fuel ih =>
    intro c conn
    by_cases halt : conn.reconnect_attempts < conn.config.max_reconnect_attempts
    · simp only [reconnectLoop, halt, if_true]
      rcases hc : ({ conn with reconnect_attempts := conn.reconnect_attempts + 1 } :
          IpcConnection).connect home (env c).1 (env c).2 with ⟨conn2, r⟩
      cases r with
      | ok u =>
        cases u
        simp [List.count_cons, beq_iff_eq]
      | error e =>
        have h2 := ih (c + 1) conn2
        simp [List.count_cons, beq_iff_eq]
        omega
    · simp [reconnectLoop, halt]

/-- C8: starting from a zero counter, reconnect performs at most
max_reconnect_attempts connection attempts; when every attempt fails, its
trace is exactly max iterations of (sleep of the backoff delay of the
current counter, then attempt), the counter ends at the maximum, and the
result is maxReconnectAttemptsExceeded of the configured maximum; when
attempt k is the first success, the trace stops right there, the counter is
0 (reset by connect) and the result is a success. -/
theorem reconnect_spec (cfg : IpcConfig) (home : Option String)
    (env : Nat → Bool × Except String Unit) :
    (((⟨cfg, 0⟩ : IpcConnection).reconnect home env).1.count IpcEvent.attemptConnect ≤
      cfg.max_reconnect_attempts) ∧
    ((∀ i, i < cfg.max_reconnect_attempts → connectOk (env i) = false) →
      (⟨cfg, 0⟩ : IpcConnection).reconnect home env =
        (expectedTrace cfg 0 cfg.max_reconnect_attempts,
          ⟨cfg, cfg.max_reconnect_attempts⟩,
          .error (.maxReconnectAttemptsExceeded cfg.max_reconnect_attempts))) ∧
    (∀ k, k < cfg.max_reconnect_attempts →
      (∀ i, i < k → connectOk (env i) = false) →
      connectOk (env k) = true →
      (⟨cfg, 0⟩ : IpcConnection).reconnect home env =
        (expectedTrace cfg 0 (k + 1), ⟨cfg, 0⟩, .ok ())) := by
  refine ⟨?_, ?_, ?_⟩
  · have := reconnectLoop_attempt_count home env cfg.max_reconnect_attempts 0 ⟨cfg, 0⟩
    simpa [IpcConnection.reconnect] using this
  · intro hfail
    have := reconnectLoop_all_fail home env cfg cfg.max_reconnect_attempts 0 0
      (by omega) (fun i hi => by simpa using hfail i hi)
    simpa [IpcConnection.reconnect] using this
  · intro k hk hfail hok
    have := reconnectLoop_first_success home env cfg k cfg.max_reconnect_attempts 0 0
      (by omega) (by omega) (fun i hi => by simpa using hfail i hi) (by simpa using hok)
    simpa [IpcConnection.reconnect] using this

/-- Environment in which every connection attempt fails: the socket path
never exists. -/
def envAllFail : Nat → Bool × Except String Unit :=
  fun _ => (false, .ok ())

theorem reconnect_spec_witness :
    ((⟨IpcConfig.default, 0⟩ : IpcConnection).reconnect none envAllFail).1.count
        IpcEvent.attemptConnect ≤ 10 ∧
    (⟨IpcConfig.default, 0⟩ : IpcConnection).reconnect none envAllFail =
      (expectedTrace IpcConfig.default 0 10, ⟨IpcConfig.default, 10⟩,
        .error (.maxReconnectAttemptsExceeded 10)) := by
  have h := reconnect_spec IpcConfig.default none envAllFail
  exact ⟨h.1, h.2.1 (fun i _ => rfl)⟩

/-- C10: when reconnect is entered with the stored counter already at or
above the configured maximum, it returns maxReconnectAttemptsExceeded at
once with an empty event trace (no sleep, no connection attempt) and an
unchanged counter; the exhausted state is cleared only by
reset_reconnect_counter or by a successful connect, both of which set the
counter back to 0. -/
theorem reconnect_exhausted_spec :
    (∀ (cfg : IpcConfig) (home : Option String)
        (env : Nat → Bool × Except String Unit) (a : Nat),
      cfg.max_reconnect_attempts ≤ a →
      (⟨cfg, a⟩ : IpcConnection).reconnect home env =
        ([], ⟨cfg, a⟩, .error (.maxReconnectAttemptsExceeded cfg.max_reconnect_attempts))) ∧
    (∀ conn : IpcConnection, conn.reset_reconnect_counter.reconnect_attempts = 0) ∧
    (∀ (conn : IpcConnection) (home : Option String) (e : Bool × Except String Unit),
      connectOk e = true → (conn.connect home e.1 e.2).1.reconnect_attempts = 0) := by
  refine ⟨?_, fun _ => rfl, ?_⟩
  · intro cfg home env a ha
    have hz : cfg.max_reconnect_attempts - a = 0 := by omega
    simp [IpcConnection.reconnect, hz, reconnectLoop]
  · intro conn home e hok
    rw [connect_success conn home e hok]
    rfl

theorem reconnect_exhausted_spec_witness :
    (⟨IpcConfig.default, 10⟩ : IpcConnection).reconnect none envAllFail =
      ([], ⟨IpcConfig.default, 10⟩, .error (.maxReconnectAttemptsExceeded 10)) ∧
    (⟨IpcConfig.default, 10⟩ : IpcConnection).reset_reconnect_counter.reconnect_attempts = 0 ∧
    ((⟨IpcConfig.default, 10⟩ : IpcConnection).connect none true (.ok ())).1.reconnect_attempts
      = 0 := by
  have h := reconnect_exhausted_spec
  exact ⟨h.1 IpcConfig.default none envAllFail 10 (by decide),
    h.2.1 ⟨IpcConfig.default, 10⟩,
    h.2.2 ⟨IpcConfig.default, 10⟩ none (true, .ok ()) rfl⟩

/-- C9 (code evidence): no input whatsoever makes connect return the
timeout error: the configured timeout_ms is consulted nowhere in connect,
so the documented connect-timeout behavior is unimplemented. (The
socketNotFound and connectionFailed paths do behave as documented; see the
definition of IpcConnection.connect.) -/
theorem connect_never_timeout :
    ∀ (conn : IpcConnection) (home : Option String) (pathExists : Bool)
      (handshake : Except String Unit) (ms : Nat),
      (conn.connect home pathExists handshake).2 ≠ .error (.timeout ms) := by
  intro conn home pe hs ms
  cases pe <;> cases hs <;> simp [IpcConnection.connect]

/-- C7 counterexample: with an initial backoff of 2^60 ms (a representable
u64 configuration) and the default 30000 ms cap, attempt 10 computes
2^60 * 2^10 in u64, which wraps to 0, so backoff_delay returns 0 ms
instead of the claimed min(2^60 * 2^10, 30000) = 30000 ms. -/
theorem backoff_delay_overflow_counterexample :
    IpcConfig.backoff_delay
      { socket_path := "/tmp/anvil.ipc", max_reconnect_attempts := 10,
        initial_backoff_ms := 2 ^ 60, max_backoff_ms := 30000, timeout_ms := 5000 } 10 ≠
    min (2 ^ 60 * 2 ^ (min 10 10)) 30000 := by
  decide

/-- C7 amended: whenever initialBackoff * 2^min(attempt,10) does not
overflow u64, backoff_delay(attempt) equals
min(initialBackoff * 2^min(attempt,10), maxBackoff) milliseconds; with the
default configuration attempts 0, 1, 2, 3 yield 100, 200, 400, 800 ms, and
every attempt from 9 on is clamped to the configured 30000 ms maximum. -/
theorem backoff_delay_spec :
    (∀ (cfg : IpcConfig) (attempt : Nat),
      cfg.initial_backoff_ms * 2 ^ (min attempt 10) < UINT64_CAP →
      cfg.backoff_delay attempt =
        min (cfg.initial_backoff_ms * 2 ^ (min attempt 10)) cfg.max_backoff_ms) ∧
    (IpcConfig.default.backoff_delay 0 = 100 ∧
      IpcConfig.default.backoff_delay 1 = 200 ∧
      IpcConfig.default.backoff_delay 2 = 400 ∧
      IpcConfig.default.backoff_delay 3 = 800) ∧
    (∀ attempt, 9 ≤ attempt → IpcConfig.default.backoff_delay attempt = 30000) := by
  refine ⟨?_, ⟨rfl, rfl, rfl, rfl⟩, ?_⟩
  · intro cfg attempt h
    rw [IpcConfig.backoff_delay, Nat.mod_eq_of_lt h]
  · intro attempt ha
    have h : min attempt 10 = 10 ∨ min attempt 10 = 9 := by omega
    rcases h with h | h <;> rw [IpcConfig.backoff_delay, h] <;> rfl

theorem backoff_delay_spec_witness :
    IpcConfig.default.backoff_delay 0 =
      min (IpcConfig.default.initial_backoff_ms * 2 ^ (min 0 10))
        IpcConfig.default.max_backoff_ms ∧
    IpcConfig.default.backoff_delay 20 = 30000 :=
  ⟨backoff_delay_spec.1 IpcConfig.default 0 (by decide),
    backoff_delay_spec.2.2 20 (by omega)⟩

end TxnScope
